import Mathlib

/-!
Verification of the CorgiDS default-firmware generator
(`src/firmware_dust.cpp`, namespace `dust`).

The C++ code consists of a CRC-16 helper `crc16` and a builder
`default_firmware` that allocates a zero-filled byte vector whose length is
determined by the `Model` enum, writes a fixed header, and fills two
user-settings blocks, each ending in a little-endian CRC-16 trailer.

Embedding choices:
* a firmware image is a `Firmware` record: the vector length together with a
  write log (most recent write first); the byte at offset `i` is the most
  recent write at `i` and 0 otherwise, matching the zero-initialised
  `std::vector<uint8_t>` mutated in place (every stored value is reduced
  mod 256, matching `uint8_t` storage);
* every buffer write and every CRC input read is bounds-checked and the
  builder lives in `Option`, so an out-of-bounds access would surface as
  `none`;
* `Model` is the closed enumeration of the C++ `enum class`; its underlying
  integer value is `Model.code`, and the builder `default_firmware_opt` takes
  the raw integer so that the `default:` fallback branch of the C++ `switch`
  is reachable in the model, exactly as it is for an out-of-range enum value
  in C++;
* machine integers are `Nat` with explicit `% 2 ^ w` where the C++ code
  truncates (`static_cast<uint16_t>`, `& 0xFF`, `uint8_t` storage).
-/

namespace Dust

set_option maxRecDepth 40000
set_option maxHeartbeats 4000000

/-- One round of the inner `for (j = 0; j < 8; ++j)` loop of `crc16`:
`if (crc & 1) crc = (crc >> 1) ^ 0xA001; else crc = crc >> 1;`. -/
def crc16_round (c : Nat) : Nat :=
  if c &&& 1 ≠ 0 then (c >>> 1) ^^^ 0xA001 else c >>> 1

/-- Processing of one input byte by `crc16`: `crc ^= data[i]` followed by the
eight inner rounds. The operand is a `uint8_t`, hence the `% 256`. -/
def crc16_byte (c b : Nat) : Nat :=
  crc16_round^[8] (c ^^^ b % 256)

/-- `uint16_t crc16(uint16_t crc, const uint8_t *data, size_t len)`: fold the
per-byte step over the data, starting from the 16-bit seed. -/
def crc16 (crc : Nat) (data : List Nat) : Nat :=
  data.foldl crc16_byte (crc % 65536)

/-- The spec's own description of the checksum (§4.1, claim C3): starting from
the seed, for each input byte XOR it into the low byte of the running value,
then 8 times: if the low bit is set, shift right one bit and XOR with 0xA001,
otherwise shift right one bit. Stated independently of `crc16` so that the two
can be compared. -/
def crc16Spec_step (c : Nat) : Nat :=
  if c % 2 = 1 then (c / 2) ^^^ 0xA001 else c / 2

/-- Reference CRC recursion following the spec's words (see `crc16Spec_step`). -/
def crc16Spec : Nat → List Nat → Nat
  | c, [] => c
  | c, b :: rest => crc16Spec (crc16Spec_step^[8] (c ^^^ b % 256)) rest

/-- `enum class Model { Ds, Lite, Dsi, Ique, IqueLite }`. The spec calls the
`Ds` variant "Primary". -/
inductive Model where
  | Ds
  | Lite
  | Dsi
  | Ique
  | IqueLite
deriving DecidableEq

/-- Underlying integer value of each enumerator (C++ assigns 0,1,2,... in
declaration order). -/
def Model.code : Model → Int
  | .Ds => 0
  | .Lite => 1
  | .Dsi => 2
  | .Ique => 3
  | .IqueLite => 4

/-- The first `switch (model)` of `default_firmware`, selecting the image
length from the raw enum value; the `default:` branch yields 0x40000. -/
def modelLen (c : Int) : Nat :=
  if c = 2 then 0x20000
  else if c = 0 ∨ c = 1 then 0x40000
  else if c = 3 ∨ c = 4 then 0x80000
  else 0x40000

/-- The second `switch (model)`, selecting the byte written at offset 0x1D;
it has no `default:` branch, so an unmapped value writes nothing (`none`). -/
def byte1D (c : Int) : Option Nat :=
  if c = 0 then some 0xFF
  else if c = 1 then some 0x20
  else if c = 3 then some 0x57
  else if c = 4 then some 0x43
  else if c = 2 then some 0x63
  else none

/-- A write log: `(offset, value)` pairs, most recent write first. -/
abbrev WriteLog := List (Nat × Nat)

/-- The byte a zero-initialised buffer holds at offset `i` after the logged
writes: the most recent write at `i`, or 0 if `i` was never written. -/
def lookupByte (w : WriteLog) (i : Nat) : Nat :=
  match w with
  | [] => 0
  | (off, v) :: rest => if i = off then v else lookupByte rest i

/-- A firmware image: the vector length and the write log that produced it
from the zero-filled vector. -/
structure Firmware where
  len : Nat
  writes : WriteLog

/-- Byte of the image at offset `i`. Offsets at or beyond `len` are never
read (see `c9_no_out_of_bounds_access`). -/
def Firmware.bytes (img : Firmware) (i : Nat) : Nat :=
  lookupByte img.writes i

/-- Bounds-checked store of one byte (`firmware[off] = v` on a
`std::vector<uint8_t>` of size `len`); the stored value is truncated to 8
bits as `uint8_t` storage does. -/
def store (len : Nat) (w : WriteLog) (off v : Nat) : Option WriteLog :=
  if off < len then some ((off, v % 256) :: w) else none

/-- Sequential byte stores at consecutive offsets (the `std::copy` of
`arr18` into `firmware.begin() + 0x18`). -/
def storeSeq (len : Nat) (w : WriteLog) (off : Nat) :
    List Nat → Option WriteLog
  | [] => some w
  | v :: rest =>
    (store len w off v).bind fun w2 => storeSeq len w2 (off + 1) rest

/-- Little-endian 16-bit store: low byte `v & 0xFF` at `off`, high byte
`(v >> 8) & 0xFF` at `off + 1`. -/
def storeU16 (len : Nat) (w : WriteLog) (off v : Nat) : Option WriteLog :=
  (store len w off (v % 256)).bind fun w2 =>
    store len w2 (off + 1) ((v >>> 8) % 256)

/-- The `for (int i = 0; i < 5; ++i)` loop writing the five 16-bit `values`
little-endian at offsets `0x20 + i*2`. -/
def storeU16s (len : Nat) (w : WriteLog) (off : Nat) :
    List Nat → Option WriteLog
  | [] => some w
  | v :: rest =>
    (storeU16 len w off v).bind fun w2 => storeU16s len w2 (off + 2) rest

/-- The `for (int i = 0; i < 4; ++i)` loop writing the user name: character
byte at `off + 2*i`, then 0x00 at `off + 2*i + 1`. -/
def storeNamePairs (len : Nat) (w : WriteLog) (off : Nat) :
    List Char → Option WriteLog
  | [] => some w
  | ch :: rest =>
    (store len w off ch.toNat).bind fun w2 =>
      (store len w2 (off + 1) 0x00).bind fun w3 =>
        storeNamePairs len w3 (off + 2) rest

/-- Bounds-checked read of the byte range `[start, start + n)` (the
`crc16(0xFFFF, user, 0x70)` argument). -/
def readRange (len : Nat) (w : WriteLog) (start n : Nat) :
    Option (List Nat) :=
  if start + n ≤ len then
    some ((List.range n).map fun i => lookupByte w (start + i))
  else none

/-- The name `"Dust"` written into each user-settings block. -/
def nameDust : List Char := ['D', 'u', 's', 't']

/-- One iteration of the `for (int u = 0; u < 2; ++u)` user-settings loop:
`start = len - 0x200 + u*0x100`; flag bytes, the name, then the CRC-16 of
the first 0x70 block bytes stored little-endian at block offsets 0x72/0x73. -/
def userBlock (len : Nat) (u : Nat) (w : WriteLog) : Option WriteLog :=
  let start := len - 0x200 + u * 0x100
  (store len w (start + 0x00) 5).bind fun w1 =>
  (store len w1 (start + 0x02) (if u = 0 then 1 else 0)).bind fun w2 =>
  (store len w2 (start + 0x03) 1).bind fun w3 =>
  (store len w3 (start + 0x04) 1).bind fun w4 =>
  (storeNamePairs len w4 (start + 0x06) nameDust).bind fun w5 =>
  (readRange len w5 start 0x70).bind fun blk =>
  let crc := crc16 0xFFFF blk
  (store len w5 (start + 0x72) (crc % 256)).bind fun w6 =>
  store len w6 (start + 0x73) ((crc >>> 8) % 256)

/-- Header writes at 0x04..0x0B: the console-identity constants and the
`"MACh"` tag (`firmware[0x0B] = 0x68`, ASCII `h`). -/
def headerIdent (len : Nat) (w : WriteLog) : Option WriteLog :=
  (store len w 0x04 0x00).bind fun w1 =>
  (store len w1 0x05 0xDB).bind fun w2 =>
  (store len w2 0x06 0x1F).bind fun w3 =>
  (store len w3 0x07 0x0F).bind fun w4 =>
  (store len w4 0x08 ('M').toNat).bind fun w5 =>
  (store len w5 0x09 ('A').toNat).bind fun w6 =>
  (store len w6 0x0A ('C').toNat).bind fun w7 =>
  store len w7 0x0B 0x68

/-- Header writes at 0x14..0x1C: the 16-bit value
`static_cast<uint16_t>((len >> 17) << 12)` little-endian at 0x14, then the
`arr18` constants copied to 0x18. -/
def headerLen (len : Nat) (w : WriteLog) : Option WriteLog :=
  let val14 := ((len >>> 17) <<< 12) % 65536
  (store len w 0x14 (val14 % 256)).bind fun w1 =>
  (store len w1 0x15 ((val14 >>> 8) % 256)).bind fun w2 =>
  storeSeq len w2 0x18 [0x00, 0x00, 0x01, 0x01, 0x06]

/-- Header writes at 0x1D..0x29: the model byte (when the `switch` matched),
0xFF at 0x1E/0x1F, and the five 16-bit `values` at 0x20. -/
def headerTail (len : Nat) (b1d : Option Nat) (w : WriteLog) :
    Option WriteLog :=
  (match b1d with
   | some v => store len w 0x1D v
   | none => some w).bind fun w1 =>
  (store len w1 0x1E 0xFF).bind fun w2 =>
  (store len w2 0x1F 0xFF).bind fun w3 =>
  storeU16s len w3 0x20
    [((len - 0x200) >>> 3) % 65536, 0x0B51, 0x0DB3, 0x4F5D, 0xFFFF]

/-- Body of `default_firmware` after the two `switch`es have been resolved
into the image length and the optional 0x1D byte: the zero-filled vector
(empty write log), the header writes in source order, then the two
user-settings blocks. -/
def build (len : Nat) (b1d : Option Nat) : Option Firmware :=
  (headerIdent len []).bind fun w1 =>
  (headerLen len w1).bind fun w2 =>
  (headerTail len b1d w2).bind fun w3 =>
  (userBlock len 0 w3).bind fun w4 =>
  (userBlock len 1 w4).bind fun w5 =>
  some ⟨len, w5⟩

/-- `std::vector<uint8_t> default_firmware(Model model)` over the raw enum
value, with every buffer access bounds-checked. -/
def default_firmware_opt (c : Int) : Option Firmware :=
  build (modelLen c) (byte1D c)

/-- `default_firmware` on the closed enumeration. The `getD` default is never
used: see `c9_no_out_of_bounds_access`. -/
def default_firmware (m : Model) : Firmware :=
  (default_firmware_opt m.code).getD ⟨0, []⟩

/-- Start offset of user-settings block `u` inside an image
(`len - 0x200 + u * 0x100`). -/
def blockStart (img : Firmware) (u : Nat) : Nat :=
  img.len - 0x200 + u * 0x100

/-- The 16-bit little-endian value stored at block offsets 0x72..0x73. -/
def storedCrc (img : Firmware) (s : Nat) : Nat :=
  img.bytes (s + 0x72) + 256 * img.bytes (s + 0x73)

/-- The first 0x70 bytes of the block starting at `s`, as a list. -/
def crcInput (img : Firmware) (s : Nat) : List Nat :=
  (List.range 0x70).map fun i => img.bytes (s + i)

/-! ### Helper lemmas -/

theorem crc16_round_eq_step : crc16_round = crc16Spec_step := by
  funext c
  unfold crc16_round crc16Spec_step
  rw [Nat.and_one_is_mod, Nat.shiftRight_one]
  rcases Nat.mod_two_eq_zero_or_one c with h | h <;> simp [h]

theorem crc16_foldl_eq_spec (data : List Nat) :
    ∀ c : Nat, data.foldl crc16_byte c = crc16Spec c data := by
  induction data with
  | nil => intro c; rfl
  | cons b rest ih =>
    intro c
    rw [List.foldl_cons, ih]
    show crc16Spec (crc16_byte c b) rest = crc16Spec c (b :: rest)
    unfold crc16_byte
    rw [crc16_round_eq_step]
    rfl

theorem crc16_round_lt (c : Nat) (h : c < 65536) : crc16_round c < 65536 := by
  unfold crc16_round
  have h1 : c >>> 1 < 2 ^ 16 := by rw [Nat.shiftRight_one]; omega
  split
  · exact lt_of_lt_of_eq (Nat.xor_lt_two_pow h1 (by norm_num)) (by norm_num)
  · exact lt_of_lt_of_eq h1 (by norm_num)

theorem crc16_byte_lt (c b : Nat) (h : c < 65536) : crc16_byte c b < 65536 := by
  unfold crc16_byte
  have h0 : c ^^^ b % 256 < 65536 := by
    have hb : b % 256 < 2 ^ 16 := by omega
    exact lt_of_lt_of_eq
      (Nat.xor_lt_two_pow (by omega : c < 2 ^ 16) hb) (by norm_num)
  have : ∀ n x, x < 65536 → crc16_round^[n] x < 65536 := by
    intro n
    induction n with
    | zero => intro x hx; simpa using hx
    | succ k ihk =>
      intro x hx
      rw [Function.iterate_succ_apply]
      exact ihk _ (crc16_round_lt x hx)
  exact this 8 _ h0

theorem crc16_lt (c : Nat) (l : List Nat) : crc16 c l < 65536 := by
  unfold crc16
  have : ∀ (l : List Nat) (a : Nat), a < 65536 → l.foldl crc16_byte a < 65536 := by
    intro l
    induction l with
    | nil => intro a ha; simpa using ha
    | cons b rest ih =>
      intro a ha
      rw [List.foldl_cons]
      exact ih _ (crc16_byte_lt a b ha)
  exact this l _ (Nat.mod_lt _ (by norm_num))

theorem store_eq_some {len off v : Nat} {w w' : WriteLog} :
    store len w off v = some w' ↔ off < len ∧ w' = (off, v % 256) :: w := by
  unfold store
  split <;> simp_all [eq_comm]

theorem readRange_eq_some {len start n : Nat} {w : WriteLog} {l : List Nat} :
    readRange len w start n = some l ↔
      start + n ≤ len ∧ l = (List.range n).map fun i => lookupByte w (start + i) := by
  unfold readRange
  split <;> simp_all [eq_comm]

theorem store_lookup_ne {len off v : Nat} {w w' : WriteLog}
    (h : store len w off v = some w') {i : Nat} (hne : i ≠ off) :
    lookupByte w' i = lookupByte w i := by
  rcases store_eq_some.mp h with ⟨_, rfl⟩
  simp [lookupByte, hne]

theorem storeNamePairs_lookup_lt {len : Nat} :
    ∀ {cs : List Char} {off : Nat} {wa wb : WriteLog},
      storeNamePairs len wa off cs = some wb → ∀ {i : Nat}, i < off →
      lookupByte wb i = lookupByte wa i := by
  intro cs
  induction cs with
  | nil =>
    intro off wa wb h i hi
    simp only [storeNamePairs, Option.some.injEq] at h
    subst h
    rfl
  | cons ch rest ih =>
    intro off wa wb h i hi
    simp only [storeNamePairs, Option.bind_eq_some] at h
    rcases h with ⟨wc, hc, wd, hd, he⟩
    rw [ih he (by omega), store_lookup_ne hd (by omega),
      store_lookup_ne hc (by omega)]

theorem userBlock_lookup_lt {len u : Nat} {w w' : WriteLog}
    (h : userBlock len u w = some w') {i : Nat}
    (hi : i < len - 0x200 + u * 0x100) :
    lookupByte w' i = lookupByte w i := by
  unfold userBlock at h
  simp only [Option.bind_eq_some] at h
  rcases h with ⟨w1, h1, w2, h2, w3, h3, w4, h4, w5, h5, blk, hblk, w6, h6, h7⟩
  rw [store_lookup_ne h7 (by omega), store_lookup_ne h6 (by omega),
    storeNamePairs_lookup_lt h5 (by omega), store_lookup_ne h4 (by omega),
    store_lookup_ne h3 (by omega), store_lookup_ne h2 (by omega),
    store_lookup_ne h1 (by omega)]

theorem userBlock_crc {len u : Nat} {w w' : WriteLog}
    (h : userBlock len u w = some w') :
    lookupByte w' (len - 0x200 + u * 0x100 + 0x72)
      + 256 * lookupByte w' (len - 0x200 + u * 0x100 + 0x73)
    = crc16 0xFFFF ((List.range 0x70).map fun i =>
        lookupByte w' (len - 0x200 + u * 0x100 + i)) := by
  unfold userBlock at h
  simp only [Option.bind_eq_some] at h
  rcases h with ⟨w1, h1, w2, h2, w3, h3, w4, h4, w5, h5, blk, hblk, w6, h6, h7⟩
  rcases store_eq_some.mp h6 with ⟨_, rfl⟩
  rcases store_eq_some.mp h7 with ⟨_, rfl⟩
  rcases readRange_eq_some.mp hblk with ⟨_, rfl⟩
  have hC := crc16_lt 0xFFFF
    ((List.range 0x70).map fun i => lookupByte w5 (len - 0x200 + u * 0x100 + i))
  set C := crc16 0xFFFF
    ((List.range 0x70).map fun i => lookupByte w5 (len - 0x200 + u * 0x100 + i))
    with hCdef
  have hmap : (List.range 0x70).map (fun i =>
      lookupByte ((len - 0x200 + u * 0x100 + 0x73, (C >>> 8) % 256 % 256)
        :: (len - 0x200 + u * 0x100 + 0x72, C % 256 % 256)
        :: w5) (len - 0x200 + u * 0x100 + i))
      = (List.range 0x70).map (fun i =>
      lookupByte w5 (len - 0x200 + u * 0x100 + i)) := by
    apply List.map_congr_left
    intro i hi
    have hi' := List.mem_range.mp hi
    simp only [lookupByte]
    split_ifs <;> first | rfl | omega
  rw [hmap]
  simp only [lookupByte]
  split_ifs <;> first | rfl | omega

theorem build_eq_some {len : Nat} {b1d : Option Nat} {img : Firmware}
    (h : build len b1d = some img) :
    img.len = len ∧
    ∃ w3 w4, userBlock len 0 w3 = some w4 ∧ userBlock len 1 w4 = some img.writes := by
  unfold build at h
  simp only [Option.bind_eq_some, Option.some.injEq] at h
  rcases h with ⟨w1, h1, w2, h2, w3, h3, w4, h4, w5, h5, rfl⟩
  exact ⟨rfl, w3, w4, h4, h5⟩

theorem build_crc {len : Nat} {b1d : Option Nat} {img : Firmware}
    (h : build len b1d = some img) (u : Nat) (hu : u < 2) :
    storedCrc img (blockStart img u)
      = crc16 0xFFFF (crcInput img (blockStart img u)) := by
  obtain ⟨hlen, w3, w4, hu0, hu1⟩ := build_eq_some h
  unfold storedCrc crcInput blockStart Firmware.bytes
  rw [hlen]
  interval_cases u
  · have p : ∀ {i : Nat}, i < len - 0x200 + 1 * 0x100 →
        lookupByte img.writes i = lookupByte w4 i :=
      fun hi => userBlock_lookup_lt hu1 hi
    rw [p (by omega), p (by omega)]
    have hmap : (List.range 0x70).map (fun i =>
        lookupByte img.writes (len - 0x200 + 0 * 0x100 + i))
        = (List.range 0x70).map (fun i =>
        lookupByte w4 (len - 0x200 + 0 * 0x100 + i)) := by
      apply List.map_congr_left
      intro i hi
      exact p (by have := List.mem_range.mp hi; omega)
    rw [hmap]
    exact userBlock_crc hu0
  · exact userBlock_crc hu1

/-- Helper: for each of the five models the bounds-checked builder succeeds,
and `default_firmware` is its value. -/
theorem default_firmware_opt_eq (m : Model) :
    default_firmware_opt m.code = some (default_firmware m) := by
  have hs : (default_firmware_opt m.code).isSome = true := by
    cases m <;> decide
  obtain ⟨img, himg⟩ := Option.isSome_iff_exists.mp hs
  rw [himg]
  unfold default_firmware
  rw [himg]
  rfl

/-! ### Claim theorems -/

/-- C1: for every Model, in the image returned by `default_firmware` and for
each of the two user-settings blocks (at offsets `len - 0x200` and
`len - 0x100`), the 16-bit little-endian value stored at block offsets
0x72..0x73 equals `crc16 0xFFFF block[0..0x70)`. -/
theorem c1_user_settings_crc (m : Model) :
    storedCrc (default_firmware m) (blockStart (default_firmware m) 0)
      = crc16 0xFFFF (crcInput (default_firmware m) (blockStart (default_firmware m) 0)) ∧
    storedCrc (default_firmware m) (blockStart (default_firmware m) 1)
      = crc16 0xFFFF (crcInput (default_firmware m) (blockStart (default_firmware m) 1)) := by
  have hb := default_firmware_opt_eq m
  exact ⟨build_crc hb 0 (by omega), build_crc hb 1 (by omega)⟩

/-- C2: the image length is 0x20000 for Dsi, 0x40000 for Ds (Primary) and
Lite, and 0x80000 for Ique and IqueLite. -/
theorem c2_model_lengths :
    (default_firmware Model.Dsi).len = 0x20000 ∧
    (default_firmware Model.Ds).len = 0x40000 ∧
    (default_firmware Model.Lite).len = 0x40000 ∧
    (default_firmware Model.Ique).len = 0x80000 ∧
    (default_firmware Model.IqueLite).len = 0x80000 := by
  refine ⟨?_, ?_, ?_, ?_, ?_⟩ <;> decide

/-- C3: for every 16-bit seed and every byte sequence, `crc16` agrees with
the spec's reference bit-reversed CRC-16 computation (`crc16Spec`), and
`crc16 0xFFFF [] = 0xFFFF`. -/
theorem c3_crc16_matches_spec (seed : Nat) (data : List Nat)
    (h : seed < 65536) :
    crc16 seed data = crc16Spec seed data ∧ crc16 0xFFFF [] = 0xFFFF := by
  constructor
  · unfold crc16
    rw [Nat.mod_eq_of_lt h, crc16_foldl_eq_spec]
  · decide

theorem c3_crc16_matches_spec_witness :
    0xFFFF < 65536 ∧
    (crc16 0xFFFF [0x31, 0x32] = crc16Spec 0xFFFF [0x31, 0x32] ∧
     crc16 0xFFFF [] = 0xFFFF) :=
  ⟨by decide, c3_crc16_matches_spec 0xFFFF [0x31, 0x32] (by decide)⟩

/-- C4 counterexample: the claim says bytes 0x14 and 0x15 of the Primary
(`Ds`) image are both 0x00; in fact byte 0x15 is 0x20 (the little-endian
high byte of 0x2000), so the claimed conjunction is false. -/
theorem c4_val14_counterexample :
    ¬ ((default_firmware Model.Ds).len = 0x40000 ∧
       (default_firmware Model.Ds).bytes 0x14 = 0x00 ∧
       (default_firmware Model.Ds).bytes 0x15 = 0x00) := by
  decide

/-- C4 (amended): `default_firmware Ds` (Primary) yields a 0x40000-byte
buffer with byte 0x14 = 0x00 and byte 0x15 = 0x20, the little-endian
encoding of `(len >> 17) << 12` truncated to 16 bits (0x2000). -/
theorem c4_val14_primary :
    (default_firmware Model.Ds).len = 0x40000 ∧
    (default_firmware Model.Ds).bytes 0x14 = 0x00 ∧
    (default_firmware Model.Ds).bytes 0x15 = 0x20 ∧
    (default_firmware Model.Ds).bytes 0x14
        + 256 * (default_firmware Model.Ds).bytes 0x15
      = (((default_firmware Model.Ds).len >>> 17) <<< 12) % 65536 := by
  refine ⟨?_, ?_, ?_, ?_⟩ <;> decide

/-- C5: for every Model, offsets 0x20..0x29 hold, little-endian and in
order, the five 16-bit values `(len - 0x200) >> 3` (truncated to 16 bits),
0x0B51, 0x0DB3, 0x4F5D, 0xFFFF. -/
theorem c5_header_values (m : Model) :
    (default_firmware m).bytes 0x20 + 256 * (default_firmware m).bytes 0x21
      = (((default_firmware m).len - 0x200) >>> 3) % 65536 ∧
    (default_firmware m).bytes 0x22 + 256 * (default_firmware m).bytes 0x23
      = 0x0B51 ∧
    (default_firmware m).bytes 0x24 + 256 * (default_firmware m).bytes 0x25
      = 0x0DB3 ∧
    (default_firmware m).bytes 0x26 + 256 * (default_firmware m).bytes 0x27
      = 0x4F5D ∧
    (default_firmware m).bytes 0x28 + 256 * (default_firmware m).bytes 0x29
      = 0xFFFF := by
  cases m <;> exact ⟨by decide, by decide, by decide, by decide, by decide⟩

/-- C6: the model byte at offset 0x1D is 0xFF for Ds (Primary), 0x20 for
Lite, 0x57 for Ique, 0x43 for IqueLite, 0x63 for Dsi. -/
theorem c6_model_byte :
    (default_firmware Model.Ds).bytes 0x1D = 0xFF ∧
    (default_firmware Model.Lite).bytes 0x1D = 0x20 ∧
    (default_firmware Model.Ique).bytes 0x1D = 0x57 ∧
    (default_firmware Model.IqueLite).bytes 0x1D = 0x43 ∧
    (default_firmware Model.Dsi).bytes 0x1D = 0x63 := by
  refine ⟨?_, ?_, ?_, ?_, ?_⟩ <;> decide

/-- C7: in both user-settings blocks of every model's image, block byte
0x00 = 5, bytes 0x03 and 0x04 = 1, bytes 0x06..0x0D hold the name "Dust"
as (character, 0x00) pairs, and block byte 0x02 is 1 in block 0 and 0 in
block 1. -/
theorem c7_user_settings_fields (m : Model) (u : Nat) (hu : u < 2) :
    ((default_firmware m).bytes (blockStart (default_firmware m) u + 0x00) = 5 ∧
     (default_firmware m).bytes (blockStart (default_firmware m) u + 0x03) = 1 ∧
     (default_firmware m).bytes (blockStart (default_firmware m) u + 0x04) = 1 ∧
     (default_firmware m).bytes (blockStart (default_firmware m) u + 0x06)
       = ('D').toNat ∧
     (default_firmware m).bytes (blockStart (default_firmware m) u + 0x07) = 0 ∧
     (default_firmware m).bytes (blockStart (default_firmware m) u + 0x08)
       = ('u').toNat ∧
     (default_firmware m).bytes (blockStart (default_firmware m) u + 0x09) = 0 ∧
     (default_firmware m).bytes (blockStart (default_firmware m) u + 0x0A)
       = ('s').toNat ∧
     (default_firmware m).bytes (blockStart (default_firmware m) u + 0x0B) = 0 ∧
     (default_firmware m).bytes (blockStart (default_firmware m) u + 0x0C)
       = ('t').toNat ∧
     (default_firmware m).bytes (blockStart (default_firmware m) u + 0x0D) = 0) ∧
    (default_firmware m).bytes (blockStart (default_firmware m) 0 + 0x02) = 1 ∧
    (default_firmware m).bytes (blockStart (default_firmware m) 1 + 0x02) = 0 := by
  cases m <;> interval_cases u <;>
    exact ⟨by decide, by decide, by decide⟩

theorem c7_user_settings_fields_witness :
    (0 : Nat) < 2 ∧
    (((default_firmware Model.Ds).bytes
        (blockStart (default_firmware Model.Ds) 0 + 0x00) = 5 ∧
      (default_firmware Model.Ds).bytes
        (blockStart (default_firmware Model.Ds) 0 + 0x03) = 1 ∧
      (default_firmware Model.Ds).bytes
        (blockStart (default_firmware Model.Ds) 0 + 0x04) = 1 ∧
      (default_firmware Model.Ds).bytes
        (blockStart (default_firmware Model.Ds) 0 + 0x06) = ('D').toNat ∧
      (default_firmware Model.Ds).bytes
        (blockStart (default_firmware Model.Ds) 0 + 0x07) = 0 ∧
      (default_firmware Model.Ds).bytes
        (blockStart (default_firmware Model.Ds) 0 + 0x08) = ('u').toNat ∧
      (default_firmware Model.Ds).bytes
        (blockStart (default_firmware Model.Ds) 0 + 0x09) = 0 ∧
      (default_firmware Model.Ds).bytes
        (blockStart (default_firmware Model.Ds) 0 + 0x0A) = ('s').toNat ∧
      (default_firmware Model.Ds).bytes
        (blockStart (default_firmware Model.Ds) 0 + 0x0B) = 0 ∧
      (default_firmware Model.Ds).bytes
        (blockStart (default_firmware Model.Ds) 0 + 0x0C) = ('t').toNat ∧
      (default_firmware Model.Ds).bytes
        (blockStart (default_firmware Model.Ds) 0 + 0x0D) = 0) ∧
     (default_firmware Model.Ds).bytes
       (blockStart (default_firmware Model.Ds) 0 + 0x02) = 1 ∧
     (default_firmware Model.Ds).bytes
       (blockStart (default_firmware Model.Ds) 1 + 0x02) = 0) :=
  ⟨by decide, c7_user_settings_fields Model.Ds 0 (by decide)⟩

/-- C8: `default_firmware` is total: for every raw enum value (any `Int`,
including values not naming a `Model` enumerator) the builder succeeds, and
for unmapped values the image length falls back to 0x40000. -/
theorem c8_total_with_fallback :
    (∀ c : Int, (default_firmware_opt c).isSome = true) ∧
    (∀ c : Int, c ≠ 0 → c ≠ 1 → c ≠ 2 → c ≠ 3 → c ≠ 4 →
      (default_firmware_opt c).map Firmware.len = some 0x40000) := by
  constructor
  · intro c
    by_cases h0 : c = 0
    · subst h0; decide
    by_cases h1 : c = 1
    · subst h1; decide
    by_cases h2 : c = 2
    · subst h2; decide
    by_cases h3 : c = 3
    · subst h3; decide
    by_cases h4 : c = 4
    · subst h4; decide
    have hm : modelLen c = 0x40000 := by simp [modelLen, h0, h1, h2, h3, h4]
    have hb : byte1D c = none := by simp [byte1D, h0, h1, h2, h3, h4]
    unfold default_firmware_opt
    rw [hm, hb]
    decide
  · intro c h0 h1 h2 h3 h4
    have hm : modelLen c = 0x40000 := by simp [modelLen, h0, h1, h2, h3, h4]
    have hb : byte1D c = none := by simp [byte1D, h0, h1, h2, h3, h4]
    unfold default_firmware_opt
    rw [hm, hb]
    decide

theorem c8_total_with_fallback_witness :
    (default_firmware_opt 7).isSome = true ∧
    (default_firmware_opt 7).map Firmware.len = some 0x40000 :=
  ⟨c8_total_with_fallback.1 7,
   c8_total_with_fallback.2 7 (by decide) (by decide) (by decide) (by decide)
     (by decide)⟩

/-- C9: for every Model, every buffer access of the builder is in bounds:
the bounds-checked builder returns `some` (never hitting the out-of-bounds
branch) with `default_firmware m` as its value, both user-settings blocks
lie inside the buffer, and all header offsets (below 0x2A) do too. -/
theorem c9_no_out_of_bounds_access (m : Model) :
    default_firmware_opt m.code = some (default_firmware m) ∧
    blockStart (default_firmware m) 1 + 0x100 = (default_firmware m).len ∧
    0x2A ≤ (default_firmware m).len := by
  refine ⟨default_firmware_opt_eq m, ?_, ?_⟩ <;> cases m <;> decide

/-- C10: for every Model the two user-settings blocks agree at every offset
k < 0x100 except k = 0x02 (1 in block 0, 0 in block 1) and the CRC trailer
bytes k = 0x72, 0x73. -/
theorem c10_blocks_identical_except (m : Model) :
    (∀ k : Nat, k < 0x100 → k ≠ 0x02 → k ≠ 0x72 → k ≠ 0x73 →
      (default_firmware m).bytes (blockStart (default_firmware m) 0 + k)
        = (default_firmware m).bytes (blockStart (default_firmware m) 1 + k)) ∧
    (default_firmware m).bytes (blockStart (default_firmware m) 0 + 0x02) = 1 ∧
    (default_firmware m).bytes (blockStart (default_firmware m) 1 + 0x02) = 0 := by
  cases m <;> exact ⟨by decide, by decide, by decide⟩

theorem c10_blocks_identical_except_witness :
    ((5 : Nat) < 0x100 ∧ (5 : Nat) ≠ 0x02 ∧ (5 : Nat) ≠ 0x72 ∧ (5 : Nat) ≠ 0x73) ∧
    (default_firmware Model.Ds).bytes (blockStart (default_firmware Model.Ds) 0 + 5)
      = (default_firmware Model.Ds).bytes
          (blockStart (default_firmware Model.Ds) 1 + 5) :=
  ⟨by decide,
   (c10_blocks_identical_except Model.Ds).1 5 (by decide) (by decide)
     (by decide) (by decide)⟩

end Dust
